import Mathlib

/-!
# Verification of the revan-ai-voice-relay call relay

Shallow embedding of `ai_voice_relay_server.js` (the per-call relay inside
`wss.on('connection', ...)`, plus `finalizeAndNotify` over the process-wide
`sessions` map).  Earlier iterations of the same file (`part_000`..`part_002`)
contain identical logic for the portions modelled here.

Modelling conventions:
* JavaScript truthiness of string-valued fields (`msg.audio`, `msg.delta`,
  `streamSid`, the webhook URL, ...) is `jsTruthyS`: absent (`none`) and the
  empty string are falsy.
* `a || b` on such fields is `jsOrO` / `jsOr`.
* `Date.now()` is modelled by a `clock` counter in the relay state that
  advances once per processed event; `finalizeAndNotify` takes `now` as an
  argument.
* Object field maps (`session.fields`, `msg.fields`) are association lists;
  `Object.assign` is `mergeFields` (`setField` overwrites the existing
  occurrence in place, new keys are appended).
* The debug counters `framesFromCaller` / `framesFromAI` / `framesToTwilio`
  and the periodic `[STAT]` log timer feed only `console.log` and are not
  modelled; `console.warn('[Twilio] missing streamSid; audio skipped')` is
  kept as the observable `Action.warnMissingStreamSid`.
* Each WebSocket handler is driven by an explicit event trace; `relayStep`
  processes one event, `relayRun` folds a trace, both returning the emitted
  outbound actions in order.
-/

namespace VoiceRelay

/-- JS truthiness for an optional string field: `undefined`/`null` and `""`
are falsy. -/
def jsTruthyS : Option String → Bool
  | none => false
  | some s => !(s == "")

/-- JS `a || b` on optional string fields, keeping the result optional
(`null` when both are falsy). -/
def jsOrO (a b : Option String) : Option String :=
  if jsTruthyS a then a else if jsTruthyS b then b else none

/-- JS `a || d` with a string default (as in `msg.from || 'agent'`). -/
def jsOr (a : Option String) (d : String) : String :=
  if jsTruthyS a then a.getD "" else d

/-- One entry of `session.transcript`: `{ from, text, t }` pushed by the
`transcript.delta` branch of the AI message handler. -/
structure TranscriptEntry where
  fromField : String
  text : String
  t : Nat
deriving DecidableEq, Repr

/-- A JS object field map as an association list (insertion order kept). -/
abbrev FieldMap := List (String × String)

/-- `obj[k] = v` on a field map: overwrite the first occurrence of `k` in
place, append if absent (JS object key-update semantics). -/
def setField : FieldMap → String → String → FieldMap
  | [], k, v => [(k, v)]
  | (k', v') :: rest, k, v =>
      if k' = k then (k', v) :: rest else (k', v') :: setField rest k v

/-- `Object.assign(old, new)`: write every key of `new` into `old`, in the
order the keys appear in `new`. -/
def mergeFields (old new : FieldMap) : FieldMap :=
  new.foldl (fun m kv => setField m kv.1 kv.2) old

/-- First-match lookup in a field map (JS property read; keys are unique in
maps produced by `setField`, where first match is the single match). -/
def lookupField : FieldMap → String → Option String
  | [], _ => none
  | (k', v) :: rest, k => if k' = k then some v else lookupField rest k

/-- `session` record held in the `sessions` map:
`{ transcript: [], fields: {}, start: Date.now() }`. -/
structure Session where
  transcript : List TranscriptEntry := []
  fields : FieldMap := []
  start : Nat := 0
deriving DecidableEq, Repr

/-- Connection-handler phase: before `await connectOpenAI` resolves
(`connecting`), after it resolved (`active`, the AI handlers and the
`twilioWS.on('close')` handler are registered), or after it rejected
(`failed`, the handler returned early and no further handlers exist). -/
inductive Phase
  | connecting
  | active
  | failed
deriving DecidableEq, Repr

/-- The per-call mutable closure state of `wss.on('connection')`:
`streamSid`, `aiWS` (non-null?), `aiReady`, the session record, plus the
modelling `phase` and `clock`. -/
structure RelayState where
  streamSid : Option String := none
  aiWS : Bool := false
  aiReady : Bool := false
  phase : Phase := .connecting
  session : Session := {}
  clock : Nat := 0
deriving DecidableEq, Repr

/-- Initial closure state at the top of the connection handler. -/
def relayInit : RelayState := {}

/-- A parsed Twilio media-stream message, by its `event` discriminator.
`start` carries the raw `msg.start?.streamSid` and `msg.streamSid` fields;
`media` carries `msg.media?.payload`; `malformed` is a `JSON.parse` failure
(caught and logged); `other` is any other `event` value. -/
inductive TwilioMsg
  | start (startSid topSid : Option String)
  | media (payload : Option String)
  | stop
  | malformed
  | other
deriving DecidableEq, Repr

/-- A parsed OpenAI realtime event, with the fields the handler reads. -/
structure AIMsg where
  type : String
  audio : Option String := none
  delta : Option String := none
  text : Option String := none
  fromField : Option String := none
  fields : Option FieldMap := none
deriving DecidableEq, Repr

/-- One event delivered to the call's handlers, in receipt order. -/
inductive Event
  | twilioMsg (m : TwilioMsg)
  | aiMsg (m : AIMsg)
  | aiMalformed
  | connectResult (ok : Bool)
  | aiClose
  | twilioClose
deriving DecidableEq, Repr

/-- Control events sent on the AI socket by the relay. -/
inductive AIOut
  | sendAppend (audio : String)
  | sendCommit
  | sendResponseCreate
deriving DecidableEq, Repr

/-- Observable outbound effects of the relay. -/
inductive Action
  | aiSend (e : AIOut)
  | twilioSend (streamSid payload : String)
  | warnMissingStreamSid
  | closeAI
  | closeTwilio
  | finalizeAndNotifyCall
deriving DecidableEq, Repr

/-- The audio-variant sniffing of the AI message handler:
`(msg.type === 'response.audio.delta' && msg.audio) ||
 (msg.type === 'response.output_audio.delta' && msg.delta)`. -/
def isAudioDelta (m : AIMsg) : Bool :=
  (m.type == "response.audio.delta" && jsTruthyS m.audio) ||
  (m.type == "response.output_audio.delta" && jsTruthyS m.delta)

/-- `const audioPayload = msg.audio || msg.delta`. -/
def audioPayload (m : AIMsg) : Option String :=
  jsOrO m.audio m.delta

/-- One step of the per-call relay on one delivered event, returning the new
closure state and the outbound actions, exactly as the registered handlers
execute.  AI-socket events and the caller-close handler exist only in the
`active` phase (the handlers are registered after `connectOpenAI` resolves;
on rejection the connection handler returns without registering them);
`connectResult` is the single resolution of the awaited connect promise. -/
def relayStepCore (s : RelayState) : Event → RelayState × List Action
  | .twilioMsg (.start a b) =>
      ({ s with streamSid := jsOrO a b }, [])
  | .twilioMsg (.media p) =>
      if jsTruthyS p then
        if s.aiReady && s.aiWS then
          (s, [.aiSend (.sendAppend (p.getD ""))])
        else (s, [])
      else (s, [])
  | .twilioMsg .stop =>
      if s.aiWS then
        (s, [.aiSend .sendCommit, .aiSend .sendResponseCreate, .closeAI, .closeTwilio])
      else (s, [.closeTwilio])
  | .twilioMsg .malformed => (s, [])
  | .twilioMsg .other => (s, [])
  | .connectResult ok =>
      if s.phase = .connecting then
        if ok then
          ({ s with phase := .active, aiWS := true, aiReady := true },
           [.aiSend .sendResponseCreate])
        else
          ({ s with phase := .failed }, [.closeTwilio])
      else (s, [])
  | .aiMsg m =>
      if s.phase = .active then
        let audioOut : List Action :=
          if isAudioDelta m && jsTruthyS (audioPayload m) then
            if jsTruthyS s.streamSid then
              [.twilioSend (s.streamSid.getD "") ((audioPayload m).getD "")]
            else
              [.warnMissingStreamSid]
          else []
        let session1 :=
          if (m.type == "transcript.delta") && jsTruthyS m.text then
            { s.session with
                transcript := s.session.transcript ++
                  [⟨jsOr m.fromField "agent", m.text.getD "", s.clock⟩] }
          else s.session
        let session2 :=
          if (m.type == "extracted.fields") && m.fields.isSome then
            { session1 with fields := mergeFields session1.fields (m.fields.getD []) }
          else session1
        ({ s with session := session2 }, audioOut)
      else (s, [])
  | .aiMalformed => (s, [])
  | .aiClose =>
      if s.phase = .active then (s, [.closeTwilio]) else (s, [])
  | .twilioClose =>
      if s.phase = .active then (s, [.finalizeAndNotifyCall, .closeAI]) else (s, [])

/-- `relayStepCore` with the modelling clock advanced once per event. -/
def relayStep (s : RelayState) (e : Event) : RelayState × List Action :=
  let r := relayStepCore s e
  ({ r.1 with clock := s.clock + 1 }, r.2)

/-- Fold a whole event trace through `relayStep`, concatenating actions in
emission order. -/
def relayRun : RelayState → List Event → RelayState × List Action
  | s, [] => (s, [])
  | s, e :: es =>
      let r := relayStep s e
      let rest := relayRun r.1 es
      (rest.1, r.2 ++ rest.2)

/-- The process-wide `sessions` map, keyed by `callSid`. -/
abbrev Store := List (String × Session)

/-- `sessions.get(callSid)`. -/
def lookupSession : Store → String → Option Session
  | [], _ => none
  | (k, v) :: rest, k' => if k = k' then some v else lookupSession rest k'

/-- The JSON document POSTed to the summary webhook. -/
structure SummaryPayload where
  callSid : String
  startedAt : Nat
  endedAt : Nat
  transcript : List TranscriptEntry
  fields : FieldMap
deriving DecidableEq, Repr

/-- `finalizeAndNotify(callSid)`: look the session up; return immediately if
it is absent or `N8N_SUMMARY_WEBHOOK` is falsy; otherwise POST the summary
payload.  The function never writes to the `sessions` map; the returned
store is the (unchanged) map and the optional payload is the attempted
POST. -/
def finalizeAndNotify (st : Store) (webhook : Option String) (callSid : String)
    (now : Nat) : Store × Option SummaryPayload :=
  match lookupSession st callSid with
  | none => (st, none)
  | some s =>
      if jsTruthyS webhook then
        (st, some ⟨callSid, s.start, now, s.transcript, s.fields⟩)
      else (st, none)

/-- A teardown statement: an outbound action wrapped in `try {...} catch {}`
(`guarded`) or executed bare (`raw`). -/
inductive Stmt
  | guarded (a : Action)
  | raw (a : Action)
deriving DecidableEq, Repr

/-- Execute a statement sequence under a failure oracle, collecting the
actions that are attempted.  A failing `guarded` statement swallows its
exception and execution continues; a failing `raw` statement aborts the
remainder of the sequence (its own attempt still happened). -/
def runStmts (failing : Action → Bool) : List Stmt → List Action
  | [] => []
  | .guarded a :: rest => a :: runStmts failing rest
  | .raw a :: rest => if failing a then [a] else a :: runStmts failing rest

/-- The `stop`-handler teardown as written in the source (with `aiWS`
non-null): every step is try/catch-guarded. -/
def stopTeardownStmts : List Stmt :=
  [.guarded (.aiSend .sendCommit), .guarded (.aiSend .sendResponseCreate),
   .guarded .closeAI, .guarded .closeTwilio]

/-- Is this action an invocation of `finalizeAndNotify`? -/
def isFinalize : Action → Bool
  | .finalizeAndNotifyCall => true
  | _ => false

/-- Is this action an outbound caller media send? -/
def isTwilioSend : Action → Bool
  | .twilioSend _ _ => true
  | _ => false

/-- Is this event the caller channel's `close` event? -/
def isTwilioCloseEvt : Event → Bool
  | .twilioClose => true
  | _ => false

/-- Does this event set the stream route, i.e. is it a Twilio `start`
message whose fields yield a truthy `streamSid`? -/
def suppliesStreamSid : Event → Bool
  | .twilioMsg (.start a b) => jsTruthyS (jsOrO a b)
  | _ => false

/-- Last occurrence lookup inside one field map (later duplicate keys win,
as in a JS object literal / `Object.assign` iteration). -/
def lookupLastDup : FieldMap → String → Option String
  | [], _ => none
  | (k', v) :: rest, k =>
      match lookupLastDup rest k with
      | some w => some w
      | none => if k' = k then some v else none

/-- The value written last for key `k` across a sequence of field-map
events (the latest event containing `k` wins). -/
def lastWrite (k : String) : List FieldMap → Option String
  | [] => none
  | ev :: rest =>
      match lastWrite k rest with
      | some w => some w
      | none => lookupLastDup ev k

/-- Apply a sequence of `extracted.fields` maps to a starting fields map,
in receipt order. -/
def applyFieldEvents (m : FieldMap) (evs : List FieldMap) : FieldMap :=
  evs.foldl mergeFields m

/-- The entries a single event appends to the session transcript (empty for
every event except an `active`-phase `transcript.delta` with truthy
`text`). -/
def transcriptAppend (s : RelayState) : Event → List TranscriptEntry
  | .aiMsg m =>
      if s.phase = .active then
        if (m.type == "transcript.delta") && jsTruthyS m.text then
          [⟨jsOr m.fromField "agent", m.text.getD "", s.clock⟩]
        else []
      else []
  | _ => []

/-- Sample relay state: `Active`, route known (`streamSid = "SX1"`). -/
def sampleActive : RelayState :=
  { phase := .active, aiWS := true, aiReady := true, streamSid := some "SX1" }

/-- Sample relay state: `Active`, route still unknown. -/
def sampleActiveNoSid : RelayState :=
  { phase := .active, aiWS := true, aiReady := true }

/-- Sample AI event in the first accepted audio shape. -/
def sampleAudioMsg : AIMsg :=
  { type := "response.audio.delta", audio := some "QUJD" }

/-- Sample AI event in the second accepted audio shape. -/
def sampleOutputAudioMsg : AIMsg :=
  { type := "response.output_audio.delta", delta := some "REVG" }

/-- Sample session with a non-empty transcript, for the store claims. -/
def sampleSession : Session :=
  { transcript := [⟨"agent", "Buongiorno", 3⟩], fields := [("name", "Mario")], start := 1 }

/-- Sample store holding `sampleSession` under call id `CA1`. -/
def sampleStore : Store := [("CA1", sampleSession)]

/-- Sample `extracted.fields` AI event. -/
def sampleFieldsMsg : AIMsg :=
  { type := "extracted.fields", fields := some [("a", "1")] }

/-- Sample `transcript.delta` AI event. -/
def sampleTranscriptMsg : AIMsg :=
  { type := "transcript.delta", text := some "Ciao", fromField := some "caller" }

/-- Once the relay is `Active` it stays `Active`: no event transitions out
of the active phase. -/
theorem relayStep_phase_active (s : RelayState) (e : Event) (h : s.phase = .active) :
    ((relayStep s e).1).phase = .active := by
  cases e with
  | twilioMsg m =>
      cases m <;> simp only [relayStep, relayStepCore] <;> (try split_ifs) <;> simp [h]
  | aiMsg m => simp [relayStep, relayStepCore, h]
  | aiMalformed => simp [relayStep, relayStepCore, h]
  | connectResult ok => simp [relayStep, relayStepCore, h]
  | aiClose => simp [relayStep, relayStepCore, h]
  | twilioClose => simp [relayStep, relayStepCore, h]

/-- A relay that is not `Active` only becomes `Active` through a successful
connect resolution. -/
theorem relayStep_phase_not_active (s : RelayState) (e : Event)
    (h : s.phase ≠ .active) (he : e ≠ .connectResult true) :
    ((relayStep s e).1).phase ≠ .active := by
  cases e with
  | twilioMsg m =>
      cases m <;> simp only [relayStep, relayStepCore] <;> (try split_ifs) <;> simp [h]
  | aiMsg m =>
      simp only [relayStep, relayStepCore]
      split_ifs <;> simp_all
  | aiMalformed => simp [relayStep, relayStepCore, h]
  | connectResult ok =>
      cases ok with
      | false =>
          simp only [relayStep, relayStepCore]
          split_ifs <;> simp_all
      | true => exact absurd rfl he
  | aiClose =>
      simp only [relayStep, relayStepCore]
      split_ifs <;> simp_all
  | twilioClose =>
      simp only [relayStep, relayStepCore]
      split_ifs <;> simp_all

/-- In the `Active` phase a step emits one `finalizeAndNotify` invocation
exactly on the caller-channel close event, and none otherwise. -/
theorem relayStep_finalize_count_active (s : RelayState) (e : Event)
    (h : s.phase = .active) :
    ((relayStep s e).2).countP isFinalize = (if isTwilioCloseEvt e then 1 else 0) := by
  cases e with
  | twilioMsg m =>
      cases m <;> simp only [relayStep, relayStepCore, isTwilioCloseEvt] <;>
        (try split_ifs) <;> simp_all [isFinalize]
  | aiMsg m =>
      simp only [relayStep, relayStepCore, isTwilioCloseEvt, h]
      split_ifs <;> simp_all [isFinalize]
  | aiMalformed => simp [relayStep, relayStepCore, isTwilioCloseEvt, isFinalize]
  | connectResult ok =>
      simp only [relayStep, relayStepCore, isTwilioCloseEvt]
      split_ifs <;> simp_all [isFinalize]
  | aiClose =>
      simp only [relayStep, relayStepCore, isTwilioCloseEvt]
      split_ifs <;> simp_all [isFinalize]
  | twilioClose =>
      simp only [relayStep, relayStepCore, isTwilioCloseEvt, h]
      simp [isFinalize]

/-- Outside the `Active` phase no step ever invokes `finalizeAndNotify`
(the caller-close handler is not registered). -/
theorem relayStep_finalize_count_not_active (s : RelayState) (e : Event)
    (h : s.phase ≠ .active) :
    ((relayStep s e).2).countP isFinalize = 0 := by
  cases e with
  | twilioMsg m =>
      cases m <;> simp only [relayStep, relayStepCore] <;>
        (try split_ifs) <;> simp [isFinalize]
  | aiMsg m =>
      simp only [relayStep, relayStepCore]
      rw [if_neg h]
      simp [isFinalize]
  | aiMalformed => simp [relayStep, relayStepCore, isFinalize]
  | connectResult ok =>
      simp only [relayStep, relayStepCore]
      split_ifs <;> simp [isFinalize]
  | aiClose =>
      simp only [relayStep, relayStepCore]
      split_ifs <;> simp [isFinalize]
  | twilioClose =>
      simp only [relayStep, relayStepCore]
      rw [if_neg h]
      simp [isFinalize]

/-- Over any trace processed in the `Active` phase, the number of
`finalizeAndNotify` invocations equals the number of caller-channel close
events in the trace. -/
theorem relayRun_finalize_count (s : RelayState) (es : List Event)
    (h : s.phase = .active) :
    ((relayRun s es).2).countP isFinalize = es.countP isTwilioCloseEvt := by
  induction es generalizing s with
  | nil => simp [relayRun]
  | cons e es ih =>
      simp only [relayRun, List.countP_cons, List.countP_append]
      rw [relayStep_finalize_count_active s e h,
          ih (relayStep s e).1 (relayStep_phase_active s e h)]
      cases hc : isTwilioCloseEvt e <;> simp [hc, Nat.add_comm]

/-- Over any trace that never resolves the AI connect successfully, a relay
that is not `Active` never invokes `finalizeAndNotify`. -/
theorem relayRun_finalize_count_not_active (s : RelayState) (es : List Event)
    (h : s.phase ≠ .active) (hes : ∀ e ∈ es, e ≠ Event.connectResult true) :
    ((relayRun s es).2).countP isFinalize = 0 := by
  induction es generalizing s with
  | nil => simp [relayRun]
  | cons e es ih =>
      simp only [relayRun, List.countP_append]
      rw [relayStep_finalize_count_not_active s e h,
          ih (relayStep s e).1
            (relayStep_phase_not_active s e h (hes e (by simp)))
            (fun e' he' => hes e' (by simp [he']))]

/-- If a connect rejection is in the trace and no connect success precedes
it, the caller channel is closed. -/
theorem relayRun_connect_fail_closes (s : RelayState) (es : List Event)
    (h : s.phase = .connecting) (hes : ∀ e ∈ es, e ≠ Event.connectResult true)
    (hf : Event.connectResult false ∈ es) :
    Action.closeTwilio ∈ (relayRun s es).2 := by
  induction es generalizing s with
  | nil => simp at hf
  | cons e es ih =>
      simp only [relayRun, List.mem_append]
      rcases List.mem_cons.mp hf with he | he
      · subst he
        left
        simp [relayStep, relayStepCore, h]
      · by_cases hconn : ((relayStep s e).1).phase = .connecting
        · exact Or.inr (ih (relayStep s e).1 hconn
            (fun e' he' => hes e' (by simp [he'])) he)
        · -- the only way to leave `connecting` without a successful connect
          -- is a rejection, which itself closes the caller channel
          cases e with
          | connectResult ok =>
              cases ok with
              | false => left; simp [relayStep, relayStepCore, h]
              | true => exact absurd rfl (hes _ (by simp))
          | twilioMsg m =>
              exfalso; apply hconn
              cases m <;> simp only [relayStep, relayStepCore] <;>
                (try split_ifs) <;> simp [h]
          | aiMsg m =>
              exfalso; apply hconn
              simp only [relayStep, relayStepCore]
              split_ifs <;> simp_all
          | aiMalformed => exact absurd (by simp [relayStep, relayStepCore, h]) hconn
          | aiClose =>
              exfalso; apply hconn
              simp only [relayStep, relayStepCore]
              split_ifs <;> simp_all
          | twilioClose =>
              exfalso; apply hconn
              simp only [relayStep, relayStepCore]
              split_ifs <;> simp_all

/-- Any outbound caller media send in a step carries the current (set and
truthy) stream route. -/
theorem relayStep_twilioSend_route (s : RelayState) (e : Event) (sid p : String)
    (h : Action.twilioSend sid p ∈ (relayStep s e).2) :
    s.streamSid = some sid ∧ sid ≠ "" := by
  cases e with
  | twilioMsg m =>
      cases m <;> simp only [relayStep, relayStepCore] at h <;>
        (try split_ifs at h) <;> simp_all
  | aiMsg m =>
      simp only [relayStep, relayStepCore] at h
      split_ifs at h
      all_goals try simp_all
      all_goals (cases hs : s.streamSid <;> simp_all [jsTruthyS])
  | aiMalformed => simp [relayStep, relayStepCore] at h
  | connectResult ok =>
      simp only [relayStep, relayStepCore] at h
      split_ifs at h <;> simp_all
  | aiClose =>
      simp only [relayStep, relayStepCore] at h
      split_ifs at h <;> simp_all
  | twilioClose =>
      simp only [relayStep, relayStepCore] at h
      split_ifs at h <;> simp_all

/-- A step whose event does not supply a stream route leaves an unset route
unset. -/
theorem relayStep_streamSid_none (s : RelayState) (e : Event)
    (h : s.streamSid = none) (he : suppliesStreamSid e = false) :
    ((relayStep s e).1).streamSid = none := by
  cases e with
  | twilioMsg m =>
      cases m with
      | start a b =>
          simp only [suppliesStreamSid] at he
          simp only [relayStep, relayStepCore]
          cases hj : jsOrO a b with
          | none => simp
          | some t =>
              rw [hj] at he
              simp only [jsOrO] at hj
              split_ifs at hj <;> simp_all [jsTruthyS]
      | media p =>
          simp only [relayStep, relayStepCore]
          split_ifs <;> simp [h]
      | stop =>
          simp only [relayStep, relayStepCore]
          split_ifs <;> simp [h]
      | malformed => simp [relayStep, relayStepCore, h]
      | other => simp [relayStep, relayStepCore, h]
  | aiMsg m =>
      simp only [relayStep, relayStepCore]
      split_ifs <;> simp [h]
  | aiMalformed => simp [relayStep, relayStepCore, h]
  | connectResult ok =>
      simp only [relayStep, relayStepCore]
      split_ifs <;> simp [h]
  | aiClose =>
      simp only [relayStep, relayStepCore]
      split_ifs <;> simp [h]
  | twilioClose =>
      simp only [relayStep, relayStepCore]
      split_ifs <;> simp [h]

/-- Starting with the route unset, a trace that never supplies a stream
route produces no outbound caller media send at all. -/
theorem relayRun_no_twilioSend (s : RelayState) (es : List Event)
    (h : s.streamSid = none) (hes : ∀ e ∈ es, suppliesStreamSid e = false) :
    ∀ sid p, Action.twilioSend sid p ∉ (relayRun s es).2 := by
  induction es generalizing s with
  | nil => simp [relayRun]
  | cons e es ih =>
      intro sid p hmem
      simp only [relayRun, List.mem_append] at hmem
      rcases hmem with hmem | hmem
      · have := relayStep_twilioSend_route s e sid p hmem
        rw [h] at this
        exact Option.noConfusion this.1
      · exact ih (relayStep s e).1
          (relayStep_streamSid_none s e h (hes e (by simp)))
          (fun e' he' => hes e' (by simp [he'])) sid p hmem

/-- Each step appends `transcriptAppend` to the session transcript and never
rewrites existing entries. -/
theorem relayStep_transcript (s : RelayState) (e : Event) :
    ((relayStep s e).1).session.transcript
      = s.session.transcript ++ transcriptAppend s e := by
  cases e with
  | twilioMsg m =>
      cases m <;> simp only [relayStep, relayStepCore, transcriptAppend] <;>
        (try split_ifs) <;> simp
  | aiMsg m =>
      simp only [relayStep, relayStepCore, transcriptAppend]
      split_ifs <;> simp_all
  | aiMalformed => simp [relayStep, relayStepCore, transcriptAppend]
  | connectResult ok =>
      simp only [relayStep, relayStepCore, transcriptAppend]
      split_ifs <;> simp
  | aiClose =>
      simp only [relayStep, relayStepCore, transcriptAppend]
      split_ifs <;> simp
  | twilioClose =>
      simp only [relayStep, relayStepCore, transcriptAppend]
      split_ifs <;> simp

/-- Over a whole trace the initial transcript persists as a prefix: entries
are only ever appended, in receipt order. -/
theorem relayRun_transcript_extends (s : RelayState) (es : List Event) :
    ∃ t, ((relayRun s es).1).session.transcript = s.session.transcript ++ t := by
  induction es generalizing s with
  | nil => exact ⟨[], by simp [relayRun]⟩
  | cons e es ih =>
      obtain ⟨t, ht⟩ := ih (relayStep s e).1
      refine ⟨transcriptAppend s e ++ t, ?_⟩
      simp only [relayRun]
      rw [ht, relayStep_transcript, List.append_assoc]

/-- Reading a key after a single JS property write: the written key returns
the new value, other keys are untouched. -/
theorem lookupField_setField (m : FieldMap) (k v q : String) :
    lookupField (setField m k v) q = if k = q then some v else lookupField m q := by
  induction m with
  | nil =>
      by_cases h : k = q <;> simp [setField, lookupField, h]
  | cons kv rest ih =>
      obtain ⟨k0, v0⟩ := kv
      by_cases h0 : k0 = k
      · subst h0
        by_cases h : k0 = q <;> simp [setField, lookupField, h]
      · by_cases h : k0 = q
        · subst h
          have hkq : ¬k = k0 := fun hh => h0 hh.symm
          simp [setField, lookupField, h0, hkq]
        · simp [setField, lookupField, h0, h, ih]

/-- Reading a key after `Object.assign(old, ev)`: the last write for the
key inside `ev` wins, otherwise the old value survives. -/
theorem lookupField_mergeFields (ev m : FieldMap) (q : String) :
    lookupField (mergeFields m ev) q =
      match lookupLastDup ev q with
      | some w => some w
      | none => lookupField m q := by
  induction ev generalizing m with
  | nil => simp [mergeFields, lookupLastDup]
  | cons kv rest ih =>
      obtain ⟨k0, v0⟩ := kv
      have hfold : mergeFields m ((k0, v0) :: rest) = mergeFields (setField m k0 v0) rest := by
        simp [mergeFields]
      rw [hfold, ih]
      simp only [lookupLastDup]
      cases lookupLastDup rest q with
      | some w => simp
      | none =>
          simp only [lookupField_setField]
          split_ifs <;> simp_all

/-- Reading a key after a whole sequence of `extracted.fields` merges: the
key holds the value from the last event that wrote it, or the starting
value if none did. -/
theorem lookupField_applyFieldEvents (evs : List FieldMap) (m : FieldMap) (q : String) :
    lookupField (applyFieldEvents m evs) q =
      match lastWrite q evs with
      | some w => some w
      | none => lookupField m q := by
  induction evs generalizing m with
  | nil => simp [applyFieldEvents, lastWrite]
  | cons ev rest ih =>
      have hfold : applyFieldEvents m (ev :: rest) = applyFieldEvents (mergeFields m ev) rest := by
        simp [applyFieldEvents]
      rw [hfold, ih]
      simp only [lastWrite]
      cases lastWrite q rest with
      | some w => simp
      | none => rw [lookupField_mergeFields]

/-- C1: no outbound audio is sent toward the caller while the stream route
is unset.  (a) Every outbound caller media send carries the currently set
(non-null, truthy) `streamSid`; (b) an AI audio delta arriving while
`streamSid` is null produces exactly a warning and no send; (c) over any
trace in which no `start` event supplies a `streamSid`, no outbound caller
media event occurs at all. -/
theorem streamRoute_gating :
    (∀ s e sid p, Action.twilioSend sid p ∈ (relayStep s e).2 →
        s.streamSid = some sid ∧ sid ≠ "") ∧
    (∀ s m, s.phase = .active → s.streamSid = none →
        (isAudioDelta m && jsTruthyS (audioPayload m)) = true →
        (relayStep s (.aiMsg m)).2 = [Action.warnMissingStreamSid]) ∧
    (∀ s es, s.streamSid = none → (∀ e ∈ es, suppliesStreamSid e = false) →
        ∀ sid p, Action.twilioSend sid p ∉ (relayRun s es).2) := by
  refine ⟨fun s e sid p h => relayStep_twilioSend_route s e sid p h, ?_,
    fun s es h hes => relayRun_no_twilioSend s es h hes⟩
  intro s m hph hsid had
  rw [Bool.and_eq_true] at had
  have h2 := had.2
  simp only [jsTruthyS] at h2
  simp [relayStep, relayStepCore, hph, hsid, jsTruthyS]
  exact ⟨had.1, h2⟩

/-- Witness for C1: a concrete active-phase relay with no route drops a
concrete audio delta with a warning. -/
theorem streamRoute_gating_witness :
    (relayStep sampleActiveNoSid (.aiMsg sampleAudioMsg)).2
      = [Action.warnMissingStreamSid] :=
  streamRoute_gating.2.1 sampleActiveNoSid sampleAudioMsg rfl rfl (by decide)

/-- C2: for a call that became `Active`, the AI-close handler only closes
the caller channel, and `finalizeAndNotify` is invoked exactly once over
any trace containing exactly one caller-channel close event. -/
theorem finalize_once :
    (∀ s, s.phase = .active → (relayStep s Event.aiClose).2 = [Action.closeTwilio]) ∧
    (∀ s es, s.phase = .active → es.countP isTwilioCloseEvt = 1 →
        ((relayRun s es).2).countP isFinalize = 1) := by
  constructor
  · intro s h; simp [relayStep, relayStepCore, h]
  · intro s es h h1
    rw [relayRun_finalize_count s es h, h1]

/-- Witness for C2: both close events fire, finalize-and-notify runs once. -/
theorem finalize_once_witness :
    ((relayRun sampleActive [Event.aiClose, Event.twilioClose]).2).countP isFinalize = 1 :=
  finalize_once.2 sampleActive [Event.aiClose, Event.twilioClose] rfl (by decide)

/-- C3: when the AI connect attempt rejects (and never succeeds), the relay
closes the caller channel and `finalizeAndNotify` — the only producer of
summary requests — is never invoked in any continuation of the trace. -/
theorem connect_fail_no_notify :
    ∀ es, (∀ e ∈ es, e ≠ Event.connectResult true) →
      Event.connectResult false ∈ es →
      Action.closeTwilio ∈ (relayRun relayInit es).2 ∧
      ((relayRun relayInit es).2).countP isFinalize = 0 := by
  intro es hes hf
  exact ⟨relayRun_connect_fail_closes relayInit es rfl hes hf,
    relayRun_finalize_count_not_active relayInit es (by decide) hes⟩

/-- Witness for C3: connect rejection followed by the caller closing. -/
theorem connect_fail_no_notify_witness :
    Action.closeTwilio ∈ (relayRun relayInit [Event.connectResult false, Event.twilioClose]).2 ∧
    ((relayRun relayInit [Event.connectResult false, Event.twilioClose]).2).countP isFinalize = 0 :=
  connect_fail_no_notify [Event.connectResult false, Event.twilioClose]
    (by decide) (by decide)

/-- C4: the AI-event translation normalizes both accepted audio shapes —
`response.audio.delta` with an `audio` field and
`response.output_audio.delta` with a `delta` field — into the same outbound
caller media event carrying that field as payload, and no other event type
produces outbound audio. -/
theorem audio_delta_normalization :
    (∀ s m sid a, s.phase = .active → s.streamSid = some sid → sid ≠ "" →
        m.type = "response.audio.delta" → m.audio = some a → a ≠ "" →
        (relayStep s (.aiMsg m)).2 = [Action.twilioSend sid a]) ∧
    (∀ s m sid d, s.phase = .active → s.streamSid = some sid → sid ≠ "" →
        m.type = "response.output_audio.delta" → m.audio = none →
        m.delta = some d → d ≠ "" →
        (relayStep s (.aiMsg m)).2 = [Action.twilioSend sid d]) ∧
    (∀ s m, m.type ≠ "response.audio.delta" → m.type ≠ "response.output_audio.delta" →
        ∀ sid p, Action.twilioSend sid p ∉ (relayStep s (.aiMsg m)).2) := by
  refine ⟨?_, ?_, ?_⟩
  · intro s m sid a hph hsid hs ht ha has
    simp [relayStep, relayStepCore, isAudioDelta, audioPayload, jsOrO, jsTruthyS,
      hph, hsid, hs, ht, ha, has]
  · intro s m sid d hph hsid hs ht ha hd hds
    simp [relayStep, relayStepCore, isAudioDelta, audioPayload, jsOrO, jsTruthyS,
      hph, hsid, hs, ht, ha, hd, hds]
  · intro s m h1 h2 sid p hmem
    simp only [relayStep, relayStepCore] at hmem
    split_ifs at hmem <;> simp_all [isAudioDelta]

/-- Witness for C4: both concrete shapes yield the same kind of outbound
media event with the respective payload. -/
theorem audio_delta_normalization_witness :
    (relayStep sampleActive (.aiMsg sampleAudioMsg)).2 = [Action.twilioSend "SX1" "QUJD"] ∧
    (relayStep sampleActive (.aiMsg sampleOutputAudioMsg)).2 = [Action.twilioSend "SX1" "REVG"] :=
  ⟨audio_delta_normalization.1 sampleActive sampleAudioMsg "SX1" "QUJD"
      rfl rfl (by decide) rfl rfl (by decide),
   audio_delta_normalization.2.1 sampleActive sampleOutputAudioMsg "SX1" "REVG"
      rfl rfl (by decide) rfl rfl rfl (by decide)⟩

/-- C5: on the caller's `stop` event with an AI socket present, the
teardown attempts, in order: one `input_audio_buffer.commit`, one closing
`response.create`, the AI-channel close, then the caller-channel close; and
because every step is try/catch-guarded, the attempted sequence is the same
under every failure oracle. -/
theorem stop_teardown_order :
    (∀ s, s.aiWS = true →
        (relayStep s (Event.twilioMsg TwilioMsg.stop)).2 =
          [Action.aiSend AIOut.sendCommit, Action.aiSend AIOut.sendResponseCreate,
           Action.closeAI, Action.closeTwilio]) ∧
    (∀ failing, runStmts failing stopTeardownStmts =
        [Action.aiSend AIOut.sendCommit, Action.aiSend AIOut.sendResponseCreate,
         Action.closeAI, Action.closeTwilio]) := by
  constructor
  · intro s h; simp [relayStep, relayStepCore, h]
  · intro failing; rfl

/-- Witness for C5: the concrete active relay tears down in order. -/
theorem stop_teardown_order_witness :
    (relayStep sampleActive (Event.twilioMsg TwilioMsg.stop)).2 =
      [Action.aiSend AIOut.sendCommit, Action.aiSend AIOut.sendResponseCreate,
       Action.closeAI, Action.closeTwilio] :=
  stop_teardown_order.1 sampleActive rfl

/-- C6: a caller media frame arriving while the AI channel is not ready is
dropped silently — no action, no queuing, no change to any relay or session
state (only the modelling clock advances); a frame arriving while the AI
channel is ready is forwarded as exactly one `input_audio_buffer.append`
whose `audio` equals the frame payload. -/
theorem media_forward_gating :
    (∀ s p, (s.aiReady && s.aiWS) = false →
        relayStep s (Event.twilioMsg (TwilioMsg.media p)) =
          ({ s with clock := s.clock + 1 }, [])) ∧
    (∀ s p, s.aiReady = true → s.aiWS = true → p ≠ "" →
        (relayStep s (Event.twilioMsg (TwilioMsg.media (some p)))).2 =
          [Action.aiSend (AIOut.sendAppend p)]) := by
  constructor
  · intro s p h
    simp only [relayStep, relayStepCore]
    split_ifs <;> simp_all
  · intro s p hr hw hp
    simp [relayStep, relayStepCore, jsTruthyS, hr, hw, hp]

/-- Witness for C6: a concrete frame is dropped before connect, forwarded
once after. -/
theorem media_forward_gating_witness :
    relayStep relayInit (Event.twilioMsg (TwilioMsg.media (some "QUJD"))) =
      ({ relayInit with clock := 1 }, []) ∧
    (relayStep sampleActive (Event.twilioMsg (TwilioMsg.media (some "QUJD")))).2 =
      [Action.aiSend (AIOut.sendAppend "QUJD")] :=
  ⟨media_forward_gating.1 relayInit (some "QUJD") rfl,
   media_forward_gating.2 sampleActive "QUJD" rfl rfl (by decide)⟩

/-- C7 counterexample: after `finalizeAndNotify` runs (and actually posts a
summary), the sessions store is unchanged and a lookup for the same call id
returns the finalized record — which has a non-empty transcript, not a
fresh empty `Session` — refuting the claim that the record is released. -/
theorem finalize_release_cex :
    (finalizeAndNotify sampleStore (some "https://n8n.example/hook") "CA1" 9).1 = sampleStore ∧
    ((finalizeAndNotify sampleStore (some "https://n8n.example/hook") "CA1" 9).2).isSome = true ∧
    lookupSession (finalizeAndNotify sampleStore (some "https://n8n.example/hook") "CA1" 9).1 "CA1"
      = some sampleSession ∧
    sampleSession.transcript ≠ [] ∧ sampleSession ≠ ({} : Session) := by
  refine ⟨rfl, rfl, rfl, by decide, by decide⟩

/-- C7 amended: `finalizeAndNotify` never modifies the sessions store; a
subsequent lookup for the same call id yields the same (finalized) record,
since the code contains no removal. -/
theorem finalize_keeps_store :
    ∀ st wh cs now, (finalizeAndNotify st wh cs now).1 = st ∧
      ∀ q, lookupSession (finalizeAndNotify st wh cs now).1 q = lookupSession st q := by
  intro st wh cs now
  have h : (finalizeAndNotify st wh cs now).1 = st := by
    unfold finalizeAndNotify
    rcases lookupSession st cs with _ | s
    · rfl
    · split_ifs <;> rfl
  exact ⟨h, fun q => by rw [h]⟩

/-- C8: fields merging is last-write-wins.  (a) An `extracted.fields` event
merges with `Object.assign` semantics; (b) applying `{a:1}` then
`{a:2,b:3}` yields `{a:2,b:3}`; (c) after any sequence of merges each key
holds the value from the last event that wrote it. -/
theorem fields_last_write_wins :
    (∀ s m fm, s.phase = .active → m.type = "extracted.fields" → m.fields = some fm →
        ((relayStep s (.aiMsg m)).1).session.fields = mergeFields s.session.fields fm) ∧
    (applyFieldEvents [] [[("a", "1")], [("a", "2"), ("b", "3")]] = [("a", "2"), ("b", "3")]) ∧
    (∀ m evs q, lookupField (applyFieldEvents m evs) q =
        match lastWrite q evs with
        | some w => some w
        | none => lookupField m q) := by
  refine ⟨?_, by decide, fun m evs q => lookupField_applyFieldEvents evs m q⟩
  intro s m fm h ht hf
  simp [relayStep, relayStepCore, h, ht, hf]

/-- Witness for C8: a concrete `extracted.fields` event merges into the
session fields map. -/
theorem fields_last_write_wins_witness :
    ((relayStep sampleActive (.aiMsg sampleFieldsMsg)).1).session.fields
      = mergeFields sampleActive.session.fields [("a", "1")] :=
  fields_last_write_wins.1 sampleActive sampleFieldsMsg [("a", "1")] rfl rfl rfl

/-- C9: the transcript is append-only and order-preserving.  (a) Every step
leaves the existing transcript intact, appending `transcriptAppend` at the
end; (b) the length never decreases; (c) a `transcript.delta` event appends
exactly one entry recording its `from` (defaulting to `agent`) and `text`;
(d) over any trace the original transcript persists as a prefix, with new
entries appended in receipt order. -/
theorem transcript_append_only :
    (∀ s e, ((relayStep s e).1).session.transcript
        = s.session.transcript ++ transcriptAppend s e) ∧
    (∀ s e, s.session.transcript.length ≤ ((relayStep s e).1).session.transcript.length) ∧
    (∀ s m, s.phase = .active → m.type = "transcript.delta" → jsTruthyS m.text = true →
        transcriptAppend s (.aiMsg m)
          = [⟨jsOr m.fromField "agent", m.text.getD "", s.clock⟩]) ∧
    (∀ s es, ∃ t, ((relayRun s es).1).session.transcript = s.session.transcript ++ t) := by
  refine ⟨relayStep_transcript, ?_, ?_, relayRun_transcript_extends⟩
  · intro s e
    rw [relayStep_transcript]
    simp
  · intro s m h ht htx
    simp [transcriptAppend, h, ht, htx]

/-- Witness for C9: a concrete `transcript.delta` event appends one entry
with its speaker and text. -/
theorem transcript_append_only_witness :
    transcriptAppend sampleActive (Event.aiMsg sampleTranscriptMsg)
      = [⟨"caller", "Ciao", 0⟩] := by
  have h := transcript_append_only.2.2.1 sampleActive sampleTranscriptMsg rfl rfl (by decide)
  simpa [sampleTranscriptMsg, sampleActive, jsOr, jsTruthyS] using h

/-- C10: `finalizeAndNotify` is a guarded no-op at entry — with no session
for the call id, or with the webhook endpoint falsy, it returns with the
store untouched and no request; with the endpoint unconfigured no call ever
produces a summary notification. -/
theorem finalize_guarded_noop :
    (∀ st wh cs now, lookupSession st cs = none →
        finalizeAndNotify st wh cs now = (st, none)) ∧
    (∀ st wh cs now, jsTruthyS wh = false →
        finalizeAndNotify st wh cs now = (st, none)) ∧
    (∀ st cs now, (finalizeAndNotify st none cs now).2 = none) := by
  refine ⟨?_, ?_, ?_⟩
  · intro st wh cs now h
    simp [finalizeAndNotify, h]
  · intro st wh cs now h
    unfold finalizeAndNotify
    rcases lookupSession st cs with _ | s <;> simp [h]
  · intro st cs now
    unfold finalizeAndNotify
    rcases lookupSession st cs with _ | s <;> simp [jsTruthyS]

/-- Witness for C10: unknown call id and unset webhook are both no-ops. -/
theorem finalize_guarded_noop_witness :
    finalizeAndNotify [] (some "https://n8n.example/hook") "CA9" 0 = ([], none) ∧
    finalizeAndNotify sampleStore none "CA1" 5 = (sampleStore, none) :=
  ⟨finalize_guarded_noop.1 [] (some "https://n8n.example/hook") "CA9" 0 rfl,
   finalize_guarded_noop.2.1 sampleStore none "CA1" 5 rfl⟩

end VoiceRelay
